import Mathlib

/-!
# Verification of the go-together event pipeline

Shallow embedding of the event extraction/aggregation pipeline of this
repository (`scripts/fetch-events.ts` and the on-demand API route), together
with proofs and refutations of the specification claims about it.

Modelling conventions:
* JavaScript arrays become `List`; a JS `Map` built from key/value pairs
  becomes an association list with the `Map.set` semantics (replace the value
  in place when the key exists, append otherwise), which reproduces the
  first-insertion key order and last-write-wins values of an ES2015 `Map`.
* `Array.prototype.sort(cmp)` becomes a stable insertion sort whose comparator
  maps a NaN comparison result to `0`, as prescribed by the ECMAScript
  `SortCompare` operation.  (For consistent comparators the stable sorted
  permutation is unique, so any conforming engine agrees with this model.)
* `new Date(s).valueOf()` is modelled by a parser for the `YYYY/MM/DD` and
  `YYYY-MM-DD` forms that the prompt of the pipeline mandates, returning `none`
  (NaN) on anything else; the numeric value is the monotone encoding
  `y*10000 + m*100 + d`, which orders exactly like the epoch-millisecond
  value on calendar dates.
* Fallible external calls (`tvly.search`, `generateObject`, `req.json`)
  become `Except`-valued function parameters.
-/

namespace GoTogether

/-- One search result as returned by the search capability
(`result.results` elements): a url, a title and a content snippet. -/
structure RawHit where
  url : String
  title : String
  content : String
deriving DecidableEq, Repr

/-- A configured source site (an element of `TARGET_SITES`). -/
structure Source where
  name : String
  domain : String
deriving DecidableEq, Repr

/-- The `TARGET_SITES` constant of `scripts/fetch-events.ts` (identical to the
one in the API route). -/
def TARGET_SITES : List Source :=
  [ ⟨"KKTIX", "kktix.com"⟩,
    ⟨"寬宏", "kham.com.tw"⟩,
    ⟨"年代", "ticket.com.tw"⟩,
    ⟨"遠大", "ticketplus.com.tw"⟩,
    ⟨"iNDIEVOX", "indievox.com"⟩,
    ⟨"BILLBOARD LIVE TAIPEI", "billboardlivetaipei.tw"⟩,
    ⟨"華山文創園區", "huashan1914.com"⟩ ]

/-- A session of an event, following the `sessions` element schema:
a location, a date array of strings, and a purchase url. -/
structure Session where
  location : String
  date : List String
  url : String
deriving DecidableEq, Repr

/-- An extracted event, following `EventSchema`.  The zod enums (`category`,
`source`) infer to string unions, so both fields are strings here; the
schema-side membership checks live in the `Json` validator below. -/
structure Event where
  description : String
  title : String
  image_url : Option String
  sessions : List Session
  category : String
  tags : Option (List String)
  url : String
  source : String
deriving DecidableEq, Repr

/-! ## Deduplicator

`fetch-events.ts` lines 101-104:
```
const allRawResults = (await Promise.all(searchPromises)).flat();
const uniqueResults = Array.from(
    new Map(allRawResults.map(item => [item.url, item])).values()
);
```
The `Map` constructor inserts the pairs left to right with `Map.set`:
an existing key keeps its position and gets the new value, a fresh key is
appended.  `Map.values()` iterates in key-insertion order. -/

/-- JS `Map.set` on an association list: replace in place if the key is present,
append otherwise. -/
def jsMapSet (m : List (String × RawHit)) (k : String) (v : RawHit) :
    List (String × RawHit) :=
  if (m.map Prod.fst).contains k then
    m.map (fun p => if p.1 == k then (p.1, v) else p)
  else
    m ++ [(k, v)]

/-- The Deduplicator: `Array.from(new Map(hits.map(item => [item.url, item])).values())`. -/
def dedupe (hits : List RawHit) : List RawHit :=
  (hits.foldl (fun m r => jsMapSet m r.url r) []).map Prod.snd

/-- Spec-side definition for claim C10: the distinct elements of a list in
order of first occurrence. -/
def firstOccurrences : List String → List String
  | [] => []
  | u :: us => u :: (firstOccurrences us).filter (fun v => v != u)

/-! ### Lemmas about `jsMapSet` -/

theorem replace_fst (k : String) (v : RawHit) (p : String × RawHit) :
    (if p.1 == k then (p.1, v) else p).1 = p.1 := by
  by_cases h : p.1 == k <;> simp [h]

theorem mapFst_replace (m : List (String × RawHit)) (k : String) (v : RawHit) :
    (m.map (fun p => if p.1 == k then (p.1, v) else p)).map Prod.fst
      = m.map Prod.fst := by
  rw [List.map_map]
  have h : (Prod.fst ∘ fun p : String × RawHit => if p.1 == k then (p.1, v) else p)
      = Prod.fst := by
    funext p
    exact replace_fst k v p
  rw [h]

theorem mapFst_jsMapSet (m : List (String × RawHit)) (k : String) (v : RawHit) :
    (jsMapSet m k v).map Prod.fst =
      if (m.map Prod.fst).contains k then m.map Prod.fst
      else m.map Prod.fst ++ [k] := by
  by_cases hc : (m.map Prod.fst).contains k = true
  · rw [jsMapSet, if_pos hc, if_pos hc]
    exact mapFst_replace m k v
  · rw [jsMapSet, if_neg hc, if_neg hc]
    simp

theorem nodup_jsMapSet (m : List (String × RawHit)) (k : String) (v : RawHit)
    (hnd : (m.map Prod.fst).Nodup) : ((jsMapSet m k v).map Prod.fst).Nodup := by
  rw [mapFst_jsMapSet]
  by_cases hc : (m.map Prod.fst).contains k = true
  · rw [if_pos hc]
    exact hnd
  · rw [if_neg hc]
    have hk : k ∉ m.map Prod.fst := fun hmem => hc (List.elem_iff.mpr hmem)
    simp [List.nodup_append, hnd, hk]

theorem filter_not_mem_keys (m : List (String × RawHit)) (u : String)
    (h : u ∉ m.map Prod.fst) :
    m.filter (fun p => p.1 == u) = [] := by
  refine List.filter_eq_nil_iff.mpr ?_
  intro p hp hpe
  have hpu : p.1 = u := eq_of_beq hpe
  exact h (hpu ▸ List.mem_map_of_mem Prod.fst hp)

theorem filter_replace_ne (m : List (String × RawHit)) (k : String) (v : RawHit)
    (u : String) (hku : k ≠ u) :
    (m.map (fun p => if p.1 == k then (p.1, v) else p)).filter (fun p => p.1 == u)
      = m.filter (fun p => p.1 == u) := by
  induction m with
  | nil => rfl
  | cons p m ih =>
    by_cases hpk : p.1 = k <;> by_cases hpu : p.1 = u
    · exact absurd (hpk.symm.trans hpu) hku
    · simp only [List.map_cons, List.filter_cons, hpk]
      simp [hku, hpu]
      simpa using ih
    · have huk : u ≠ k := Ne.symm hku
      simp only [List.map_cons, List.filter_cons, hpk]
      simp [hpk, hpu, huk]
      simpa using ih
    · simp only [List.map_cons, List.filter_cons, hpk]
      simp [hpk, hpu]
      simpa using ih

theorem filter_replace_self (m : List (String × RawHit)) (u : String) (v : RawHit)
    (hnd : (m.map Prod.fst).Nodup) (hmem : u ∈ m.map Prod.fst) :
    (m.map (fun p => if p.1 == u then (p.1, v) else p)).filter (fun p => p.1 == u)
      = [(u, v)] := by
  induction m with
  | nil => simp at hmem
  | cons p m ih =>
    simp only [List.map_cons, List.nodup_cons] at hnd
    obtain ⟨hp1, hp2⟩ := hnd
    by_cases hpu : p.1 = u
    · simp [List.filter_cons, hpu]
      intro a b x x1 hxm heq
      have hxu : ¬ x = u := fun h => (hpu ▸ hp1) (h ▸ List.mem_map_of_mem Prod.fst hxm)
      rw [if_neg hxu] at heq
      cases heq
      exact hxu
    · have hmem2 : u ∈ m.map Prod.fst := by
        rcases List.mem_cons.mp hmem with h | h
        · exact absurd h.symm hpu
        · exact h
      have ih' := ih hp2 hmem2
      simp only [List.map_cons, List.filter_cons]
      simp [hpu]
      simpa using ih'

theorem filter_jsMapSet_eq (m : List (String × RawHit)) (u : String) (v : RawHit)
    (hnd : (m.map Prod.fst).Nodup) :
    (jsMapSet m u v).filter (fun p => p.1 == u) = [(u, v)] := by
  by_cases hc : (m.map Prod.fst).contains u = true
  · rw [jsMapSet, if_pos hc]
    exact filter_replace_self m u v hnd (List.elem_iff.mp hc)
  · rw [jsMapSet, if_neg hc]
    have hnmem : u ∉ m.map Prod.fst := fun hmem => hc (List.elem_iff.mpr hmem)
    simp [List.filter_append, List.filter_cons, filter_not_mem_keys m u hnmem]

theorem filter_jsMapSet_ne (m : List (String × RawHit)) (k : String) (v : RawHit)
    (u : String) (hku : k ≠ u) :
    (jsMapSet m k v).filter (fun p => p.1 == u)
      = m.filter (fun p => p.1 == u) := by
  by_cases hc : (m.map Prod.fst).contains k = true
  · rw [jsMapSet, if_pos hc]
    exact filter_replace_ne m k v u hku
  · rw [jsMapSet, if_neg hc]
    simp [List.filter_append, List.filter_cons, hku]

theorem snd_url_jsMapSet (m : List (String × RawHit)) (k : String) (v : RawHit)
    (hv : v.url = k) (h : ∀ p ∈ m, p.2.url = p.1) :
    ∀ p ∈ jsMapSet m k v, p.2.url = p.1 := by
  intro p hp
  by_cases hc : (m.map Prod.fst).contains k = true
  · rw [jsMapSet, if_pos hc] at hp
    obtain ⟨q, hq, rfl⟩ := List.mem_map.mp hp
    by_cases hqk : q.1 = k
    · simp only [hqk]
      simp [hv, hqk]
    · simp [hqk]
      exact h q hq
  · rw [jsMapSet, if_neg hc] at hp
    rcases List.mem_append.mp hp with h1 | h1
    · exact h p h1
    · have : p = (k, v) := by simpa using h1
      rw [this]
      exact hv

theorem snd_url_foldl (hits : List RawHit) :
    ∀ (m : List (String × RawHit)), (∀ p ∈ m, p.2.url = p.1) →
    ∀ p ∈ hits.foldl (fun m r => jsMapSet m r.url r) m, p.2.url = p.1 := by
  induction hits with
  | nil => intro m h; exact h
  | cons r hits ih =>
    intro m h
    rw [List.foldl_cons]
    exact ih (jsMapSet m r.url r) (snd_url_jsMapSet m r.url r rfl h)

theorem nodup_foldl (hits : List RawHit) :
    ∀ (m : List (String × RawHit)), (m.map Prod.fst).Nodup →
    ((hits.foldl (fun m r => jsMapSet m r.url r) m).map Prod.fst).Nodup := by
  induction hits with
  | nil => intro m h; exact h
  | cons r hits ih =>
    intro m h
    rw [List.foldl_cons]
    exact ih (jsMapSet m r.url r) (nodup_jsMapSet m r.url r h)

theorem getLast?_cons_of_some {α : Type} (a x : α) (l : List α)
    (h : l.getLast? = some x) : (a :: l).getLast? = some x := by
  cases l with
  | nil => simp at h
  | cons b l => rw [List.getLast?_cons_cons]; exact h

/-- Characterization of the folded `Map`: the entry at key `u` holds the
last raw hit with that url, or the entry of the accumulator when no hit has it. -/
theorem foldl_filter (hits : List RawHit) :
    ∀ (m : List (String × RawHit)), (m.map Prod.fst).Nodup → ∀ u,
    (hits.foldl (fun m r => jsMapSet m r.url r) m).filter (fun p => p.1 == u) =
      match (hits.filter (fun r => r.url == u)).getLast? with
      | some r => [(u, r)]
      | none => m.filter (fun p => p.1 == u) := by
  induction hits with
  | nil => intro m hnd u; rfl
  | cons r hits ih =>
    intro m hnd u
    rw [List.foldl_cons,
        ih (jsMapSet m r.url r) (nodup_jsMapSet m r.url r hnd) u]
    by_cases hru : r.url = u
    · cases hlast : (hits.filter (fun x => x.url == u)).getLast? with
      | some r' =>
        have hcons : ((r :: hits).filter (fun x => x.url == u)).getLast?
            = some r' := by
          rw [List.filter_cons]
          by_cases hcond : (r.url == u) = true
          · rw [if_pos hcond]
            exact getLast?_cons_of_some r r' _ hlast
          · rw [if_neg hcond]
            exact hlast
        rw [hcons]
      | none =>
        have hcons : ((r :: hits).filter (fun x => x.url == u)).getLast?
            = some r := by
          rw [List.filter_cons, if_pos (by simp [hru])]
          rw [List.getLast?_eq_none_iff.mp hlast]
          exact List.getLast?_singleton r
        rw [hcons]
        rw [← hru]
        rw [filter_jsMapSet_eq m r.url r hnd]
    · have hcons : ((r :: hits).filter (fun x => x.url == u)).getLast?
          = (hits.filter (fun x => x.url == u)).getLast? := by
        rw [List.filter_cons, if_neg (by simp [hru])]
      rw [hcons]
      cases hlast : (hits.filter (fun x => x.url == u)).getLast? with
      | some r' => rfl
      | none => exact filter_jsMapSet_ne m r.url r u hru

theorem strContains_iff (l : List String) (u : String) :
    l.contains u = true ↔ u ∈ l := List.elem_iff

theorem strContains_eq_false (l : List String) (u : String) (h : u ∉ l) :
    l.contains u = false := by
  cases hc : l.contains u
  · rfl
  · exact absurd ((strContains_iff l u).mp hc) h

theorem not_mem_of_strContains_false (l : List String) (u : String)
    (h : l.contains u = false) : u ∉ l := by
  intro hm
  rw [(strContains_iff l u).mpr hm] at h
  simp at h

/-- Characterization of the folded `Map` key order: accumulator keys first,
then the first occurrences of the remaining urls. -/
theorem foldl_keys (hits : List RawHit) :
    ∀ (m : List (String × RawHit)),
    (hits.foldl (fun m r => jsMapSet m r.url r) m).map Prod.fst =
      m.map Prod.fst ++ (firstOccurrences (hits.map RawHit.url)).filter
        (fun u => !((m.map Prod.fst).contains u)) := by
  induction hits with
  | nil => intro m; simp [firstOccurrences]
  | cons r hits ih =>
    intro m
    rw [List.foldl_cons, ih (jsMapSet m r.url r), mapFst_jsMapSet]
    by_cases hc : (m.map Prod.fst).contains r.url = true
    · rw [if_pos hc]
      congr 1
      show (firstOccurrences (hits.map RawHit.url)).filter _
        = (firstOccurrences ((r :: hits).map RawHit.url)).filter _
      rw [List.map_cons]
      show _ = (r.url :: (firstOccurrences (hits.map RawHit.url)).filter
        (fun v => v != r.url)).filter (fun u => !((m.map Prod.fst).contains u))
      rw [List.filter_cons, if_neg (by rw [hc]; decide), List.filter_filter]
      apply List.filter_congr
      intro x _
      cases hx : (m.map Prod.fst).contains x with
      | true => simp
      | false =>
        have hxm : x ∉ m.map Prod.fst := not_mem_of_strContains_false _ _ hx
        have hxr : x ≠ r.url := fun he => hxm (he ▸ (strContains_iff _ _).mp hc)
        simp [bne_iff_ne.mpr hxr]
    · rw [if_neg hc]
      rw [List.map_cons]
      show (m.map Prod.fst ++ [r.url]) ++ _
        = m.map Prod.fst ++ (r.url :: (firstOccurrences (hits.map RawHit.url)).filter
            (fun v => v != r.url)).filter (fun u => !((m.map Prod.fst).contains u))
      have hcf : (m.map Prod.fst).contains r.url = false := by
        cases hcc : (m.map Prod.fst).contains r.url
        · rfl
        · exact absurd hcc hc
      rw [List.filter_cons, if_pos (by rw [hcf]; decide), List.filter_filter,
          List.append_assoc, List.singleton_append]
      refine congrArg (fun t => m.map Prod.fst ++ r.url :: t) ?_
      apply List.filter_congr
      intro x _
      by_cases h1 : x ∈ m.map Prod.fst
      · have ha : (m.map Prod.fst ++ [r.url]).contains x = true :=
          (strContains_iff _ _).mpr (List.mem_append.mpr (.inl h1))
        rw [ha, (strContains_iff _ _).mpr h1]
        simp
      · by_cases h2 : x = r.url
        · have ha : (m.map Prod.fst ++ [r.url]).contains x = true :=
            (strContains_iff _ _).mpr (List.mem_append.mpr (.inr (by simp [h2])))
          rw [ha, strContains_eq_false _ _ h1, h2]
          simp
        · have ha : (m.map Prod.fst ++ [r.url]).contains x = false := by
            apply strContains_eq_false
            intro hmem
            rcases List.mem_append.mp hmem with hmm | hmm
            · exact h1 hmm
            · exact h2 (by simpa using hmm)
          rw [ha, strContains_eq_false _ _ h1, bne_iff_ne.mpr h2]
          simp

/-- The key / value-url invariant plus the two characterizations, packaged at
the empty initial map (the actual Deduplicator call site). -/
theorem dedupe_filter (hits : List RawHit) (u : String) :
    (dedupe hits).filter (fun r => r.url == u)
      = ((hits.filter (fun r => r.url == u)).getLast?).toList := by
  unfold dedupe
  rw [List.filter_map]
  have hinv : ∀ p ∈ hits.foldl (fun m r => jsMapSet m r.url r) [],
      p.2.url = p.1 := snd_url_foldl hits [] (by simp)
  have hpred : (hits.foldl (fun m r => jsMapSet m r.url r) []).filter
        ((fun r : RawHit => r.url == u) ∘ Prod.snd)
      = (hits.foldl (fun m r => jsMapSet m r.url r) []).filter
        (fun p => p.1 == u) := by
    apply List.filter_congr
    intro p hp
    show (p.2.url == u) = (p.1 == u)
    rw [hinv p hp]
  rw [hpred, foldl_filter hits [] (by simp) u]
  cases hlast : (hits.filter (fun r => r.url == u)).getLast? with
  | some r => simp
  | none => rfl

/-- C1: for every input sequence of RawHits, the output of the Deduplicator
contains exactly one entry per distinct link, and the fields of that entry equal
those of the last-occurring raw hit with that link in source-iteration
order.  (Stated per link: the output entries carrying url `u` are exactly
the last hit of the input carrying url `u`.) -/
theorem C1_dedupe_one_entry_per_link_last_wins :
    ∀ (hits : List RawHit) (u : String),
    (dedupe hits).filter (fun r => r.url == u)
      = ((hits.filter (fun r => r.url == u)).getLast?).toList := by
  intro hits u
  exact dedupe_filter hits u

/-- C10: the Deduplicator lists the unique entries in the order of the first
occurrence of each distinct link in the flattened input. -/
theorem C10_dedupe_first_occurrence_order :
    ∀ (hits : List RawHit),
    (dedupe hits).map (fun r => r.url)
      = firstOccurrences (hits.map (fun r => r.url)) := by
  intro hits
  unfold dedupe
  rw [List.map_map]
  have hinv : ∀ p ∈ hits.foldl (fun m r => jsMapSet m r.url r) [],
      p.2.url = p.1 := snd_url_foldl hits [] (by simp)
  have hmc : (hits.foldl (fun m r => jsMapSet m r.url r) []).map
        ((fun r : RawHit => r.url) ∘ Prod.snd)
      = (hits.foldl (fun m r => jsMapSet m r.url r) []).map Prod.fst :=
    List.map_eq_map_iff.mpr (fun p hp => hinv p hp)
  rw [hmc, foldl_keys hits []]
  simp [List.contains]

/-! ## Search Collector

`fetch-events.ts` lines 90-101: one search per configured site, the query is
`site:<domain> ( <searchString> )` with `maxResults: 15` and
`search_depth: "advanced"` exactly for the site named `BILLBOARD LIVE
TAIPEI`; a failure of one call is caught and becomes `[]`; the results are
awaited jointly and flattened. -/

/-- The options record passed to `tvly.search`. -/
structure SearchOpts where
  maxResults : Nat
  search_depth : String
deriving DecidableEq, Repr

/-- The per-site query string: `site:<domain> ( <searchString> )`. -/
def buildQuery (site : Source) (searchString : String) : String :=
  "site:" ++ site.domain ++ " ( " ++ searchString ++ " )"

/-- The per-site search options. -/
def buildOpts (site : Source) : SearchOpts :=
  ⟨15, if site.name == "BILLBOARD LIVE TAIPEI" then "advanced" else "basic"⟩

/-- The search of one site with the local try/catch: an exception degrades to `[]`. -/
def searchOne (fn : String → SearchOpts → Except String (List RawHit))
    (searchString : String) (site : Source) : List RawHit :=
  match fn (buildQuery site searchString) (buildOpts site) with
  | .ok rs => rs
  | .error _ => []

/-- The merged raw-hit sequence: `(await Promise.all(searchPromises)).flat()`. -/
def collectAll (sites : List Source)
    (fn : String → SearchOpts → Except String (List RawHit))
    (searchString : String) : List RawHit :=
  (sites.map (searchOne fn searchString)).flatten

/-- C2: if the search call of one source throws, the merged RawHit sequence
equals the concatenation of the results of the other sources only — the failing source
contributes an empty list and the batch is never aborted (`collectAll` is a
total function). -/
theorem C2_single_source_failure_isolation :
    ∀ (sites : List Source)
      (fn : String → SearchOpts → Except String (List RawHit))
      (searchString : String) (bad : Source) (e : String),
    fn (buildQuery bad searchString) (buildOpts bad) = .error e →
    collectAll sites fn searchString
      = ((sites.filter (fun s => s != bad)).map
          (searchOne fn searchString)).flatten := by
  intro sites fn ss bad e hbad
  induction sites with
  | nil => rfl
  | cons s sites ih =>
    by_cases hsb : s = bad
    · subst hsb
      have h0 : searchOne fn ss s = [] := by
        rw [searchOne, hbad]
      rw [collectAll, List.map_cons, List.flatten_cons, h0,
          List.filter_cons]
      rw [if_neg (by simp)]
      rw [collectAll] at ih
      simpa using ih
    · rw [collectAll, List.map_cons, List.flatten_cons, List.filter_cons,
          if_pos (by simp [bne_iff_ne.mpr hsb])]
      rw [List.map_cons, List.flatten_cons]
      rw [collectAll] at ih
      rw [ih]

/-- Witness for C2 at a concrete input: two sites, the search of the second
site throws, and the merged output holds the results of the first site only. -/
theorem C2_single_source_failure_isolation_witness :
    collectAll [⟨"A", "a.com"⟩, ⟨"B", "b.com"⟩]
        (fun q _ => if q == "site:b.com ( K )" then Except.error "boom"
          else Except.ok [⟨"u1", "t1", "c1"⟩]) "K"
      = (([⟨"A", "a.com"⟩, ⟨"B", "b.com"⟩].filter
            (fun s => s != (⟨"B", "b.com"⟩ : Source))).map
          (searchOne (fun q _ => if q == "site:b.com ( K )" then Except.error "boom"
            else Except.ok [⟨"u1", "t1", "c1"⟩]) "K")).flatten :=
  C2_single_source_failure_isolation
    [⟨"A", "a.com"⟩, ⟨"B", "b.com"⟩]
    (fun q _ => if q == "site:b.com ( K )" then Except.error "boom"
      else Except.ok [⟨"u1", "t1", "c1"⟩])
    "K" ⟨"B", "b.com"⟩ "boom" (by rfl)

/-! ## Query Planner

`fetch-events.ts` lines 35-65 (`getDynamicDateParams`).  JS `Date.setMonth`
semantics: a month index ≥ 12 rolls the year; a day-of-month beyond the end
of the target month rolls into the following month. -/

/-- A JS `Date` in calendar form: full year, 0-based month (as `getMonth`),
1-based day of month (as `getDate`). -/
structure JsDate where
  year : Nat
  month : Nat
  day : Nat
deriving DecidableEq, Repr

/-- Gregorian leap-year rule (as implemented by JS `Date`). -/
def isLeap (y : Nat) : Bool :=
  (y % 4 == 0 && y % 100 != 0) || y % 400 == 0

/-- Days in 0-based month `m0` of year `y`. -/
def daysInMonth (y m0 : Nat) : Nat :=
  if m0 == 1 then (if isLeap y then 29 else 28)
  else if m0 == 3 || m0 == 5 || m0 == 8 || m0 == 10 then 30
  else 31

/-- Day-of-month overflow after `setMonth`: a day past the end of the target
month rolls into the following month.  One step suffices for every day value
a valid `Date` can carry (day ≤ 31 < 28 + 28). -/
def fixDay (y m0 d : Nat) : JsDate :=
  if daysInMonth y m0 < d then
    if m0 == 11 then ⟨y + 1, 0, d - daysInMonth y m0⟩
    else ⟨y, m0 + 1, d - daysInMonth y m0⟩
  else ⟨y, m0, d⟩

/-- JS `d.setMonth(M)` on a copy of `dt`, read back through
`getFullYear`/`getMonth`/`getDate`. -/
def setMonth (dt : JsDate) (M : Nat) : JsDate :=
  fixDay (dt.year + M / 12) (M % 12) dt.day

/-- JS zero padding, as in padStart of width 2. -/
def padStart2 (n : Nat) : String :=
  if n < 10 then "0" ++ toString n else toString n

/-- The `formatDate` helper of `getDynamicDateParams`:
the `YYYY/MM/DD` form with zero-padded month and day. -/
def formatDate (dt : JsDate) : String :=
  toString dt.year ++ "/" ++ padStart2 (dt.month + 1) ++ "/" ++ padStart2 dt.day

/-- The `getDynamicDateParams` function of `fetch-events.ts`: start = today, end = today
after `setMonth(getMonth() + 2)`, and three quoted keywords built from
`setMonth(getMonth() + i)` for `i = 0, 1, 2`, joined with `" OR "`.
Returns `(startDate, endDate, searchString)`. -/
def getDynamicDateParams (now : JsDate) : String × String × String :=
  let startDate := formatDate now
  let endDate := formatDate (setMonth now (now.month + 2))
  let monthKeywords := (List.range 3).map (fun i =>
    let d := setMonth now (now.month + i)
    "\"" ++ toString d.year ++ " " ++ toString (d.month + 1) ++ "月\"")
  (startDate, endDate, String.intercalate " OR " monthKeywords)

/-- Modelled from the spec side of claim C6: plain calendar-month addition —
"the current and next two calendar months" — ignoring the day of month. -/
def calendarAddMonths (y m0 i : Nat) : Nat × Nat :=
  (y + (m0 + i) / 12, (m0 + i) % 12)

/-- Modelled from the spec side of claim C6: one quoted keyword
`"YYYY M月"` for a calendar month. -/
def specMonthKeyword (p : Nat × Nat) : String :=
  "\"" ++ toString p.1 ++ " " ++ toString (p.2 + 1) ++ "月\""

theorem daysInMonth_ge_28 (y m0 : Nat) : 28 ≤ daysInMonth y m0 := by
  unfold daysInMonth
  split
  · split <;> omega
  · split <;> omega

theorem fixDay_of_le (y m0 d : Nat) (hd : d ≤ 28) :
    fixDay y m0 d = ⟨y, m0, d⟩ := by
  unfold fixDay
  rw [if_neg]
  have := daysInMonth_ge_28 y m0
  omega

/-- C6 counterexample: on 2026-01-31 the keyword string produced by the code
is `"2026 1月" OR "2026 3月" OR "2026 3月"` — `setMonth` day-overflow skips
February — while the "current and next two calendar months" of the claim would be
`"2026 1月" OR "2026 2月" OR "2026 3月"`. -/
theorem C6_keywords_counterexample :
    ¬ ((getDynamicDateParams ⟨2026, 0, 31⟩).2.2
        = String.intercalate " OR " (((List.range 3).map
            (fun i => calendarAddMonths 2026 0 i)).map specMonthKeyword)) := by
  decide

/-- C6 amended: whenever the current day of month is at most 28 (so that no
`setMonth` day-overflow can occur), the Query Planner returns the zero-padded
`YYYY/MM/DD` window `[today, today + 2 calendar months]` and the disjunctive
keyword string of exactly the current and next two calendar months. -/
theorem C6_amended_query_planner (now : JsDate) (hd : now.day ≤ 28) :
    getDynamicDateParams now =
      (formatDate now,
       formatDate ⟨(calendarAddMonths now.year now.month 2).1,
                   (calendarAddMonths now.year now.month 2).2, now.day⟩,
       String.intercalate " OR " (((List.range 3).map
         (fun i => calendarAddMonths now.year now.month i)).map
           specMonthKeyword)) := by
  have hsm : ∀ i, setMonth now (now.month + i)
      = ⟨now.year + (now.month + i) / 12, (now.month + i) % 12, now.day⟩ := by
    intro i
    unfold setMonth
    exact fixDay_of_le _ _ _ hd
  simp [getDynamicDateParams, hsm, calendarAddMonths, specMonthKeyword,
    List.map_map, Function.comp_def]

/-- Witness for the amended C6 at 2026-10-12. -/
theorem C6_amended_query_planner_witness :
    getDynamicDateParams ⟨2026, 9, 12⟩ =
      (formatDate ⟨2026, 9, 12⟩,
       formatDate ⟨(calendarAddMonths 2026 9 2).1,
                   (calendarAddMonths 2026 9 2).2, 12⟩,
       String.intercalate " OR " (((List.range 3).map
         (fun i => calendarAddMonths 2026 9 i)).map specMonthKeyword)) :=
  C6_amended_query_planner ⟨2026, 9, 12⟩ (by decide)

/-! ## Normalizer / Sorter

`fetch-events.ts` lines 156-161:
```
events.sort by the comparator dateA - dateB, where
  dateA = new Date(a.sessions[0]?.date[0]).valueOf()
  dateB = new Date(b.sessions[0]?.date[0]).valueOf()
```
`valueOf()` of an Invalid Date (missing session, empty date array, or an
unparsable string) is NaN; ECMAScript `SortCompare` turns a NaN comparator
result into `+0`.  `Array.prototype.sort` is required to be stable; for the
(inconsistent) NaN cases the result is modelled by insertion sort. -/

/-- All characters are decimal digits and the list is non-empty: its value. -/
def digitsVal (cs : List Char) : Option Nat :=
  if cs = [] then none
  else if cs.all Char.isDigit then
    some (cs.foldl (fun n c => n * 10 + (c.toNat - 48)) 0)
  else none

/-- Split a character list on a separator. -/
def splitOnChar (sep : Char) : List Char → List (List Char)
  | [] => [[]]
  | c :: rest =>
    let r := splitOnChar sep rest
    if c == sep then [] :: r
    else
      match r with
      | [] => [[c]]
      | g :: gs => (c :: g) :: gs

/-- Model of `new Date(s).valueOf()` on the date-string formats the pipeline
mandates (`YYYY/MM/DD` or `YYYY-MM-DD`): `none` is NaN (Invalid Date), and a
valid date maps to `y*10000 + m*100 + d`, a monotone stand-in for the epoch
milliseconds (only the sign of the comparator is ever consumed). -/
def parseJsDate (s : String) : Option Nat :=
  let parts :=
    if s.toList.contains '/' then splitOnChar '/' s.toList
    else splitOnChar '-' s.toList
  match parts with
  | [ys, ms, ds] =>
    match digitsVal ys, digitsVal ms, digitsVal ds with
    | some y, some m, some d =>
      if 1 ≤ m && m ≤ 12 && 1 ≤ d && d ≤ 31 then
        some (y * 10000 + m * 100 + d)
      else none
    | _, _, _ => none
  | _ => none

/-- The sort key `new Date(e.sessions[0]?.date[0]).valueOf()`:
`none` for a missing first session, an empty date array, or an unparsable
string. -/
def jsSortKey (e : Event) : Option Nat :=
  match e.sessions with
  | [] => none
  | s :: _ =>
    match s.date with
    | [] => none
    | d :: _ => parseJsDate d

/-- The comparator `dateA - dateB` as consumed by `SortCompare` (a NaN
result — either side Invalid — is coerced to `+0`). -/
def jsCompare (a b : Event) : Int :=
  match jsSortKey a, jsSortKey b with
  | some x, some y => (x : Int) - (y : Int)
  | _, _ => 0

/-- Relation "a need not come after b": comparator result at most 0. -/
def jsLeEvent (a b : Event) : Prop := jsCompare a b ≤ 0

instance : DecidableRel jsLeEvent := fun a b =>
  inferInstanceAs (Decidable (jsCompare a b ≤ 0))

/-- The in-place `events.sort(comparator)` call (stable, per ES2019). -/
def jsSortEvents (l : List Event) : List Event :=
  List.insertionSort jsLeEvent l

/-- The ordering of the claim: whenever both events carry parsable leading dates,
they appear in non-decreasing calendar order (vacuous if either is NaN). -/
def keyLe (a b : Event) : Bool :=
  match jsSortKey a, jsSortKey b with
  | some x, some y => decide (x ≤ y)
  | _, _ => true

/-- Sample events for the C3 refutation. -/
def evJan1 : Event :=
  ⟨"", "A", none, [⟨"loc", ["2026/01/01"], "u"⟩], "其他", none, "u", "其他"⟩

def evJan2 : Event :=
  ⟨"", "B", none, [⟨"loc", ["2026/01/02"], "u"⟩], "其他", none, "u", "其他"⟩

/-- An event with no session at all — `sessions[0]?.date[0]` is `undefined`,
so its sort key is NaN.  The zod schema does not require a non-empty
`sessions` array, so this value is schema-valid extraction output. -/
def evNoSession : Event :=
  ⟨"", "X", none, [], "其他", none, "u", "其他"⟩

/-- C3 counterexample: sorting `[Jan 2, no-date, Jan 1]` leaves the list
unchanged (every comparison against the NaN-keyed event returns `+0`), so
the two dated events come out in strictly decreasing date order. -/
theorem C3_sort_counterexample :
    ¬ (jsSortEvents [evJan2, evNoSession, evJan1]).Pairwise
        (fun a b => keyLe a b = true) := by
  decide

theorem keyLe_of_le (a b : Event) (x y : Nat) (ha : jsSortKey a = some x)
    (hb : jsSortKey b = some y) (h : x ≤ y) : keyLe a b = true := by
  unfold keyLe
  rw [ha, hb]
  simpa using h

theorem le_of_jsLe (a b : Event) (x y : Nat) (ha : jsSortKey a = some x)
    (hb : jsSortKey b = some y) (h : jsLeEvent a b) : x ≤ y := by
  unfold jsLeEvent jsCompare at h
  rw [ha, hb] at h
  have h2 : (x : Int) - (y : Int) ≤ 0 := h
  omega

theorem le_of_not_jsLe (a b : Event) (x y : Nat) (ha : jsSortKey a = some x)
    (hb : jsSortKey b = some y) (h : ¬ jsLeEvent a b) : y ≤ x := by
  unfold jsLeEvent jsCompare at h
  rw [ha, hb] at h
  have h2 : ¬ ((x : Int) - (y : Int) ≤ 0) := h
  omega

theorem orderedInsert_pairwise_keyLe (x : Event) :
    ∀ (L : List Event), (jsSortKey x).isSome → (∀ e ∈ L, (jsSortKey e).isSome) →
    L.Pairwise (fun a b => keyLe a b = true) →
    (List.orderedInsert jsLeEvent x L).Pairwise (fun a b => keyLe a b = true) := by
  intro L
  induction L with
  | nil =>
    intro _ _ _
    simp [List.orderedInsert]
  | cons b l ih =>
    intro hx hL hp
    obtain ⟨kx, hkx⟩ := Option.isSome_iff_exists.mp hx
    obtain ⟨kb, hkb⟩ := Option.isSome_iff_exists.mp (hL b (List.mem_cons_self b l))
    rw [List.orderedInsert]
    obtain ⟨hb, hl⟩ := List.pairwise_cons.mp hp
    by_cases hr : jsLeEvent x b
    · rw [if_pos hr]
      have hxb : kx ≤ kb := le_of_jsLe x b kx kb hkx hkb hr
      refine List.pairwise_cons.mpr ⟨?_, hp⟩
      intro z hz
      rcases List.mem_cons.mp hz with rfl | hz
      · exact keyLe_of_le x z kx kb hkx hkb hxb
      · obtain ⟨kz, hkz⟩ := Option.isSome_iff_exists.mp
          (hL z (List.mem_cons_of_mem b hz))
        have hbz : kb ≤ kz := by
          have := hb z hz
          unfold keyLe at this
          rw [hkb, hkz] at this
          simpa using this
        exact keyLe_of_le x z kx kz hkx hkz (le_trans hxb hbz)
    · rw [if_neg hr]
      have hbx : kb ≤ kx := le_of_not_jsLe x b kx kb hkx hkb hr
      refine List.pairwise_cons.mpr ⟨?_, ?_⟩
      · intro z hz
        rcases (List.mem_orderedInsert jsLeEvent).mp hz with rfl | hz
        · exact keyLe_of_le b z kb kx hkb hkx hbx
        · exact hb z hz
      · exact ih hx (fun e he => hL e (List.mem_cons_of_mem b he)) hl

theorem insertionSort_pairwise_keyLe :
    ∀ (l : List Event), (∀ e ∈ l, (jsSortKey e).isSome) →
    (List.insertionSort jsLeEvent l).Pairwise (fun a b => keyLe a b = true) := by
  intro l
  induction l with
  | nil =>
    intro _
    simp [List.insertionSort]
  | cons a l ih =>
    intro h
    rw [List.insertionSort]
    refine orderedInsert_pairwise_keyLe a _ (h a (List.mem_cons_self a l)) ?_
      (ih (fun e he => h e (List.mem_cons_of_mem a he)))
    intro e he
    exact h e (List.mem_cons_of_mem a ((List.mem_insertionSort jsLeEvent).mp he))

/-- C3 amended: whenever every extracted event has a first session whose
first date string parses as a calendar date (which is what the prompt
mandates of the capability), the sorted output is non-decreasing under
calendar-date comparison of `sessions[0].date[0]`, and hence the persisted
collection is ordered ascending by the first date of the first session of
each event. -/
theorem C3_amended_sorted (l : List Event) (h : ∀ e ∈ l, (jsSortKey e).isSome) :
    (jsSortEvents l).Pairwise (fun a b => keyLe a b = true) :=
  insertionSort_pairwise_keyLe l h

/-- Witness for the amended C3 on a concrete out-of-order list of two dated
events. -/
theorem C3_amended_sorted_witness :
    (jsSortEvents [evJan2, evJan1]).Pairwise (fun a b => keyLe a b = true) :=
  C3_amended_sorted [evJan2, evJan1] (by decide)

/-- C7: the published EventCollection is exactly a reordering (permutation)
of the event list returned by the extraction capability — the pipeline only
sorts between extraction and the write; no event is added, removed, or
modified, and no local date-window or missing-date filter exists. -/
theorem C7_published_is_permutation_of_extraction :
    ∀ (events : List Event), (jsSortEvents events).Perm events :=
  fun events => List.perm_insertionSort jsLeEvent events

/-! ## Context Assembler and on-demand handler

The API route (`POST`): parse the caller-supplied prompt field from the
body (never used afterwards), compute the date parameters server-side, run
the parallel search with per-site catch, dedupe, render the context, call
`generateObject`, and map errors to HTTP statuses: a message containing
one of the substrings quota, 429 or exceeded yields status 429 with code
`QUOTA_EXCEEDED`; anything else yields status 500 with code
`INTERNAL_ERROR`. -/

/-- Does `sub` start the list `l`? -/
def leadMatch : List Char → List Char → Bool
  | [], _ => true
  | _ :: _, [] => false
  | c :: cs, d :: ds => c == d && leadMatch cs ds

/-- Does `sub` occur contiguously inside `l`? -/
def occursIn (sub : List Char) : List Char → Bool
  | [] => sub.isEmpty
  | c :: cs => leadMatch sub (c :: cs) || occursIn sub cs

/-- JS `String.prototype.includes`. -/
def jsIncludes (s sub : String) : Bool :=
  occursIn sub.toList s.toList

/-- JS `content.slice(0, 1000)` (UTF-16 slice; identical to a code-point slice
for the BMP text this pipeline handles). -/
def truncateChars (n : Nat) (s : String) : String :=
  String.mk (s.toList.take n)

/-- The Context Assembler: one labeled block per unique hit, snippet
truncated to 1000 characters, blocks joined with `\n\n---\n\n`. -/
def buildContext (hits : List RawHit) : String :=
  String.intercalate "\n\n---\n\n"
    (hits.enum.map (fun p =>
      "[ID:" ++ toString p.1 ++ "] 標題: " ++ p.2.title ++ "\n來源: "
        ++ p.2.url ++ "\n內文摘要: " ++ truncateChars 1000 p.2.content))

/-- The extraction prompt template of the API route, with its three
interpolations (`startDate`, `endDate` twice — via the範圍 line — and the
assembled `searchContext`). -/
def buildPrompt (startDate endDate searchContext : String) : String :=
  "\n        你是一個嚴謹的活動資料提取員。\n\n        【任務目標】\n        從提供的 Raw Data 中提取符合時間範圍的活動資訊。\n\n        【資料聚合規則 (Aggregation)】\n        若多個搜尋結果為「同一個巡迴/展覽」的不同場地或時間：\n        1. 合併為單一 Event 物件。\n        2. 主標題 (title) 使用最通用名稱，去除地點後綴（如「台北站」）。\n        3. 場次資訊放入 sessions 陣列。\n        4. sessions 陣列的 location 必須提取「完整的展演場館名稱」（如 \"Zepp New Taipei\"、\"台北小巨蛋\"）。若僅提及城市填寫城市名，完全無資訊填寫 \"未知\"。絕對不可自行簡化場館名。\n        5. 特殊指定：若來源為 Billboard Live TAIPEI 或 華山文創園區，location 請直接填寫 \"BILLBOARD LIVE TAIPEI\" 或 \"華山文創園區\"。\n\n        【時間範圍】\n        今天日期："
    ++ startDate
    ++ "\n        目標範圍："
    ++ startDate ++ " ~ " ++ endDate
    ++ "\n\n        【日期格式嚴格要求】\n        請將活動日期轉換為 JSON String Array：\n        1. **單日活動**：陣列只有一個元素。\n            範例：[\"2026-02-15\"]\n        2. **連續/區間活動**：陣列有兩個元素，代表 [開始日期, 結束日期]。\n            範例：[\"2026-02-15\", \"2026-03-10\"]\n\n        【過濾規則】\n        1. 嚴格捨棄：內文未提及日期、日期不在目標範圍內。\n        2. 雜訊排除：純粹的 \"會員登入頁\"、\"購票須知\"、\"過期活動\"。\n\n        【分類邏輯】\n        1. 演唱會：包含 巡迴、Live、演唱會、見面會、音樂祭。\n        2. 展覽：包含 特展、展覽、美術館、博覽會、快閃店。\n        3. 表演藝術：包含 舞台劇、音樂劇、舞蹈、馬戲、脫口秀、相聲。\n        4. 生活休閒：包含 市集、講座、工作坊、路跑、營隊。\n        5. 其他：無法歸類者。\n\n        【待處理資料】\n        "
    ++ searchContext
    ++ "\n      "

/-- The HTTP response of the on-demand route: a 200 body carrying the
events array, or an error body carrying an error code and a message,
together with the HTTP status. -/
inductive HttpResponse where
  | ok (events : List Event)
  | err (status : Nat) (code : String) (message : String)
deriving DecidableEq, Repr

/-- The `POST` handler of the API route.  `reqPrompt` is the caller-supplied
`prompt` field of the request body — destructured by the code and never used.
`searchFn` and `llmFn` stand for the two external collaborators. -/
def POSThandler (_reqPrompt : String) (now : JsDate)
    (searchFn : String → SearchOpts → Except String (List RawHit))
    (llmFn : String → Except String (List Event)) : HttpResponse :=
  let p := getDynamicDateParams now
  let uniqueResults := dedupe (collectAll TARGET_SITES searchFn p.2.2)
  let searchContext := buildContext uniqueResults
  match llmFn (buildPrompt p.1 p.2.1 searchContext) with
  | .ok events => .ok events
  | .error message =>
    if jsIncludes message "quota" || jsIncludes message "429"
        || jsIncludes message "exceeded" then
      .err 429 "QUOTA_EXCEEDED" "API 額度已用完，請稍後再試或更換 API Key。"
    else
      .err 500 "INTERNAL_ERROR" ("伺服器錯誤：" ++ message)

/-- C8: two on-demand requests that differ only in the caller-supplied
`prompt` field produce identical responses given identical collaborator
behaviour — the window/keyword logic is computed server-side and the
prompt of the caller influences neither the search queries, the extraction
prompt, nor the returned body. -/
theorem C8_prompt_noninterference :
    ∀ (p1 p2 : String) (now : JsDate)
      (searchFn : String → SearchOpts → Except String (List RawHit))
      (llmFn : String → Except String (List Event)),
    POSThandler p1 now searchFn llmFn = POSThandler p2 now searchFn llmFn :=
  fun _ _ _ _ _ => rfl

/-- C4 counterexample: an extraction failure whose message is
`"rate limit exceeded"` contains neither `"429"` nor `"quota"`, yet the
route answers 429 / `QUOTA_EXCEEDED` (the code also matches the substring
`exceeded`), where the claim demands 500 / `INTERNAL_ERROR`. -/
theorem C4_counterexample :
    jsIncludes "rate limit exceeded" "429" = false
    ∧ jsIncludes "rate limit exceeded" "quota" = false
    ∧ POSThandler "p" ⟨2026, 9, 12⟩ (fun _ _ => Except.ok [])
        (fun _ => Except.error "rate limit exceeded")
      = HttpResponse.err 429 "QUOTA_EXCEEDED"
          "API 額度已用完，請稍後再試或更換 API Key。" := by
  refine ⟨by decide, by decide, ?_⟩
  rfl

/-- C4 amended: an extraction error whose message contains `"quota"`,
`"429"`, or `"exceeded"` yields HTTP 429 with error code `QUOTA_EXCEEDED`;
any other extraction error yields HTTP 500 with `INTERNAL_ERROR`. -/
theorem C4_amended_error_mapping :
    ∀ (message reqPrompt : String) (now : JsDate)
      (searchFn : String → SearchOpts → Except String (List RawHit)),
    ((jsIncludes message "quota" || jsIncludes message "429"
        || jsIncludes message "exceeded") = true →
      POSThandler reqPrompt now searchFn (fun _ => Except.error message)
        = HttpResponse.err 429 "QUOTA_EXCEEDED"
            "API 額度已用完，請稍後再試或更換 API Key。")
    ∧ ((jsIncludes message "quota" || jsIncludes message "429"
        || jsIncludes message "exceeded") = false →
      POSThandler reqPrompt now searchFn (fun _ => Except.error message)
        = HttpResponse.err 500 "INTERNAL_ERROR" ("伺服器錯誤：" ++ message)) := by
  intro message reqPrompt now searchFn
  constructor
  · intro h
    simp only [POSThandler]
    rw [h]
    rfl
  · intro h
    simp only [POSThandler]
    rw [h]
    rfl

/-- Witness for the amended C4: a `"quota"` message is answered 429. -/
theorem C4_amended_error_mapping_witness :
    POSThandler "p" ⟨2026, 9, 12⟩ (fun _ _ => Except.ok [])
        (fun _ => Except.error "quota")
      = HttpResponse.err 429 "QUOTA_EXCEEDED"
          "API 額度已用完，請稍後再試或更換 API Key。" :=
  (C4_amended_error_mapping "quota" "p" ⟨2026, 9, 12⟩
    (fun _ _ => Except.ok [])).1 (by decide)

/-! ## Schema validation (zod `EventSchema`)

The `sessions` element schema is a zod object with three fields:
`location` of type `z.string()`, `date` of type `z.array(z.string())`, and
`url` of type `z.string()` (each with a documentation-only `describe`).
`z.array(z.string())` carries NO length constraint — `.describe` is
documentation only — although the schema description, the
【日期格式嚴格要求】 section and the sort comparator (which reads `date[0]`)
all assume a 1- or 2-element array. -/

/-- A JSON value, the domain of zod validation. -/
inductive Json where
  | null
  | bool (b : Bool)
  | num (n : Int)
  | str (s : String)
  | arr (elems : List Json)
  | obj (fields : List (String × Json))

/-- Field lookup on a JSON object. -/
def getField (j : Json) (k : String) : Option Json :=
  match j with
  | .obj fields => fields.lookup k
  | _ => none

def isString : Json → Bool
  | .str _ => true
  | _ => false

/-- zod validation of one `sessions` element: each declared key must be
present with the declared type; `date` must be an array of strings of ANY
length (faithful to `z.array(z.string())`, which has no `.min`/`.max`/
`.length` bound). -/
def validateSession (j : Json) : Bool :=
  (match getField j "location" with
   | some v => isString v
   | none => false)
  && (match getField j "date" with
      | some (.arr elems) => elems.all isString
      | _ => false)
  && (match getField j "url" with
      | some v => isString v
      | none => false)

/-- C5 evidence: the session schema accepts a 2-element date array — but it
equally accepts a 0-element and a 3-element date array, which the claim (and
the schema description, prompt and sort comparator of the code itself) say
should be rejected.  The date-arity invariant is unenforced. -/
theorem C5_schema_accepts_any_date_arity :
    validateSession (Json.obj [("location", Json.str "台北小巨蛋"),
        ("date", Json.arr [Json.str "2026/01/01", Json.str "2026/01/02"]),
        ("url", Json.str "https://example.com/a")]) = true
    ∧ validateSession (Json.obj [("location", Json.str "台北小巨蛋"),
        ("date", Json.arr []),
        ("url", Json.str "https://example.com/a")]) = true
    ∧ validateSession (Json.obj [("location", Json.str "台北小巨蛋"),
        ("date", Json.arr [Json.str "2026/01/01", Json.str "2026/01/02",
          Json.str "2026/01/03"]),
        ("url", Json.str "https://example.com/a")]) = true :=
  ⟨rfl, rfl, rfl⟩

/-! ## Configuration (claim C9)

In `scripts/fetch-events.ts`, `createGoogleGenerativeAI` receives the
apiKey `process.env.GOOGLE_GENERATIVE_AI_API_KEY!`, and `tavily` receives
the hardcoded apiKey literal `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`.
The `!` is a compile-time non-null assertion with no runtime effect; an
absent variable flows through as `undefined`.  The Tavily key is a hardcoded
literal, not an environment read.  No presence check exists anywhere, so
startup always succeeds. -/

/-- The keys the batch script holds after startup. -/
structure BatchConfig where
  googleApiKey : Option String
  tavilyApiKey : Option String
deriving DecidableEq, Repr

/-- Startup configuration of the batch script as a total function of the
process environment. -/
def loadBatchConfig (env : String → Option String) : BatchConfig :=
  { googleApiKey := env "GOOGLE_GENERATIVE_AI_API_KEY",
    tavilyApiKey := some "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" }

/-- C9 counterexample: with a completely empty process environment, startup
still succeeds and yields a configuration whose Tavily key is the hardcoded
literal (not an environment read) and whose Google key is simply absent —
no startup-time fatal condition exists. -/
theorem C9_counterexample :
    loadBatchConfig (fun _ => none)
      = { googleApiKey := none,
          tavilyApiKey := some "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" } :=
  rfl

/-- C9 amended: the Google key is read from the process environment at
startup with no presence validation, while the Tavily key of the batch script is
a hardcoded literal that does not depend on the environment at all; absence
of either variable is never a startup-time failure (`loadBatchConfig` is
total). -/
theorem C9_amended_config :
    ∀ (env env2 : String → Option String),
    (loadBatchConfig env).googleApiKey = env "GOOGLE_GENERATIVE_AI_API_KEY"
    ∧ (loadBatchConfig env).tavilyApiKey = (loadBatchConfig env2).tavilyApiKey
    ∧ (loadBatchConfig env).tavilyApiKey ≠ none :=
  fun _ _ => ⟨rfl, rfl, fun h => Option.noConfusion h⟩

end GoTogether
